import Mathlib

/-!
Verification development for the dash-q barbershop queueing backend
(`dash-q-backend/server.js`). The queue and appointment tables, the
promotion engine (`enforceQueueLogic`), the slot calculator
(`GET /api/appointments/slots`), booking (`POST /api/appointments/book`),
join (`POST /api/queue`), call-next (`PUT /api/queue/next`), completion
(`POST /api/queue/complete`) and the notification paths are shallowly
embedded as pure Lean functions over explicit store values.

Conventions of the embedding:
* Timestamps are integer minutes since an arbitrary epoch (the code works
  in milliseconds through `Date`; all comparisons it performs are
  order/arithmetic comparisons that are invariant under this change of
  unit, and every constant it uses is a whole number of minutes).
* A `YYYY-MM-DD` string produced by `toISOString().split('T')[0]` is
  represented by its day number `t / 1440`; lexicographic comparison of
  such date strings coincides with comparison of day numbers.
* Supabase query-builder calls resolve with `{ data, error }` and do not
  throw.  `maybeSingle()` yields `data = row` for exactly one row,
  `data = null` for zero rows, and an error (hence `data = null` for a
  caller that only destructures `data`) for two or more rows; this is
  modelled by `maybeSingle` / `maybeSingleData` below.
* A filter such as `.eq('queue.status', 'waiting')` names a column of an
  embedded resource `queue` that is not part of the select; PostgREST
  drops such filters (the Supabase documentation warns that filters on a
  referenced table have no effect unless that table appears in `select`).
  The waiting-candidate query of `enforceQueueLogic` is therefore
  modelled as returning all of the barber's rows, ordered by
  `is_vip` descending then `created_at` ascending.
* Rows are kept in insertion order; ties in an `order by` are resolved by
  that underlying order.
-/

/-- Status lifecycle of a queue entry, exactly the five strings used by the
server: Waiting, Up Next, In Progress, Done, Cancelled. -/
inductive QStatus where
  | waiting
  | upNext
  | inProgress
  | done
  | cancelled
deriving DecidableEq, Repr

/-- Row of the `queue_entries` table, restricted to the columns the core
logic reads or writes. -/
structure QueueEntry where
  id : Nat
  barber_id : Nat
  user_id : Option Nat := none
  customer_email : Option String := none
  service_id : Nat := 1
  head_count : Nat := 1
  is_vip : Bool := false
  created_at : Nat
  status : QStatus
  notified_up_next : Bool := false
deriving DecidableEq, Repr

/-- Status of an appointment row: `confirmed` or `cancelled`. -/
inductive AStatus where
  | confirmed
  | cancelled
deriving DecidableEq, Repr

/-- Row of the `appointments` table. -/
structure Appointment where
  id : Nat
  barber_id : Nat
  service_id : Nat := 1
  scheduled_time : Nat
  end_time : Nat
  status : AStatus
  is_converted_to_queue : Bool := false
deriving DecidableEq, Repr

/-- Row of the `services` table (duration and price are the only columns
the core reads; a null price is `none`). -/
structure Service where
  id : Nat
  duration_minutes : Nat := 30
  price_php : Option Int := none
deriving DecidableEq, Repr

/-- Row of the `services_completed` ledger written by `/api/queue/complete`. -/
structure Charge where
  barber_id : Nat
  price : Int
  head_count : Nat
deriving DecidableEq, Repr

/-- Result of a Supabase `maybeSingle()` call as seen by a caller that
inspects both `data` and `error`: zero rows give `ok none`, one row gives
`ok (some row)`, two or more rows give an error. -/
inductive MaybeSingle (α : Type) where
  | ok : Option α → MaybeSingle α
  | err : MaybeSingle α
deriving DecidableEq, Repr

/-- Outcome of `maybeSingle()` on a result list. -/
def maybeSingle : List α → MaybeSingle α
  | [] => .ok none
  | [x] => .ok (some x)
  | _ => .err

/-- The `data` field of a `maybeSingle()` result for a caller that ignores
`error` (as `enforceQueueLogic` and the booking conflict check do):
`null` unless the query returned exactly one row. -/
def maybeSingleData (l : List α) : Option α :=
  match maybeSingle l with
  | .ok o => o
  | .err => none

/-- Sort key used by `.order('is_vip', { ascending: false })`:
VIP rows (key 0) come before regular rows (key 1). -/
def vipKey (e : QueueEntry) : Nat :=
  if e.is_vip then 0 else 1

/-- Strict comparison in the order `is_vip` descending, `created_at`
ascending. -/
def keyLt (a b : QueueEntry) : Bool :=
  vipKey a < vipKey b || (vipKey a == vipKey b && a.created_at < b.created_at)

/-- First element of a row list under the order `is_vip` descending then
`created_at` ascending, ties resolved by position (this is
`.order('is_vip', …).order('created_at', …).limit(1)`). -/
def topCandidate : List QueueEntry → Option QueueEntry
  | [] => none
  | e :: es =>
    match topCandidate es with
    | none => some e
    | some t => if keyLt t e then some t else some e

/-- Rows of one barber: `.eq('barber_id', barberId)`. -/
def barberRows (q : List QueueEntry) (b : Nat) : List QueueEntry :=
  q.filter (fun e => e.barber_id == b)

/-- The barber's current Up Next rows:
`.eq('barber_id', b).eq('status', 'Up Next')`. -/
def upNextRows (q : List QueueEntry) (b : Nat) : List QueueEntry :=
  q.filter (fun e => e.barber_id == b && e.status == QStatus.upNext)

/-- The barber's Waiting rows (used to state claims about the waiting
order; the buggy query in `enforceQueueLogic` does not restrict to them). -/
def waitingRows (q : List QueueEntry) (b : Nat) : List QueueEntry :=
  q.filter (fun e => e.barber_id == b && e.status == QStatus.waiting)

/-- Update `{ status: st }` applied to one row by id, leaving every other
column unchanged (`.update({ status: … }).eq('id', i)`). -/
def statusUpd (i : Nat) (st : QStatus) (e : QueueEntry) : QueueEntry :=
  if e.id == i then { e with status := st } else e

/-- Table after `.update({ status: st }).eq('id', i)`. -/
def setStatus (q : List QueueEntry) (i : Nat) (st : QStatus) : List QueueEntry :=
  q.map (statusUpd i st)

/-- Promotion engine `enforceQueueLogic(barberId)` (server.js 72-141),
returning the updated table and the list the function returns.
The up-next fetch is `maybeSingle` with `error` ignored; the
waiting-candidate fetch is the barber's rows ordered VIP-first then
oldest-first with `limit(1)` (its status filter is dropped, see the file
comment).  Scenario A promotes the top candidate when no Up Next row was
read; Scenario B demotes a regular Up Next and promotes a VIP top
candidate; Scenario C returns the current Up Next row (or nothing). -/
def enforceQueueLogic (b : Nat) (q : List QueueEntry) :
    List QueueEntry × List QueueEntry :=
  match maybeSingleData (upNextRows q b), topCandidate (barberRows q b) with
  | none, some c =>
      (setStatus q c.id QStatus.upNext, [{ c with status := QStatus.upNext }])
  | some u, some c =>
      if !u.is_vip && c.is_vip then
        (setStatus (setStatus q u.id QStatus.waiting) c.id QStatus.upNext,
         [{ c with status := QStatus.upNext }])
      else
        (q, [u])
  | some u, none => (q, [u])
  | none, none => (q, [])

/-- Input rows for the first promotion-engine scenario: an old finished
entry and a newer waiting entry for barber 1. -/
def c1DoneRow : QueueEntry :=
  { id := 1, barber_id := 1, created_at := 10, status := QStatus.done }

/-- Waiting companion row for the same barber, created later. -/
def c1WaitRow : QueueEntry :=
  { id := 2, barber_id := 1, created_at := 20, status := QStatus.waiting }

/-- C1: with no Up Next row and one Waiting row, `enforceQueueLogic` is
claimed to promote the first Waiting row (here `c1WaitRow`, the only one)
and return it.  Instead the engine's candidate query, whose status filter
is dropped, selects the older Done row: the call promotes `c1DoneRow`
(status Done) to Up Next, returns it, and leaves the Waiting row
untouched. -/
theorem C1_enforce_promotes_done_row :
    upNextRows [c1DoneRow, c1WaitRow] 1 = [] ∧
    waitingRows [c1DoneRow, c1WaitRow] 1 = [c1WaitRow] ∧
    topCandidate (waitingRows [c1DoneRow, c1WaitRow] 1) = some c1WaitRow ∧
    c1DoneRow.status = QStatus.done ∧
    enforceQueueLogic 1 [c1DoneRow, c1WaitRow] =
      ([{ c1DoneRow with status := QStatus.upNext }, c1WaitRow],
       [{ c1DoneRow with status := QStatus.upNext }]) := by
  decide

/-- Regular entry currently Up Next for barber 1 (VIP-bump scenario). -/
def c3UpNextRow : QueueEntry :=
  { id := 1, barber_id := 1, created_at := 10, status := QStatus.upNext }

/-- Old VIP entry of the same barber that is already Done. -/
def c3DoneVipRow : QueueEntry :=
  { id := 3, barber_id := 1, is_vip := true, created_at := 20,
    status := QStatus.done }

/-- VIP entry of the same barber that is Waiting (the first — and only —
element of the waiting order). -/
def c3WaitVipRow : QueueEntry :=
  { id := 2, barber_id := 1, is_vip := true, created_at := 30,
    status := QStatus.waiting }

/-- C3: with a regular Up Next row and a VIP first in the waiting order,
the claim says the VIP waiting entry is promoted.  The engine's candidate
query ignores status, so the older Done VIP row wins the ordering: the
call demotes the Up Next row (keeping its `created_at`) but promotes the
Done row `c3DoneVipRow` to Up Next and returns it, leaving the waiting
VIP `c3WaitVipRow` still Waiting. -/
theorem C3_vip_bump_promotes_done_row :
    maybeSingleData (upNextRows [c3UpNextRow, c3DoneVipRow, c3WaitVipRow] 1) =
      some c3UpNextRow ∧
    c3UpNextRow.is_vip = false ∧
    topCandidate (waitingRows [c3UpNextRow, c3DoneVipRow, c3WaitVipRow] 1) =
      some c3WaitVipRow ∧
    c3WaitVipRow.is_vip = true ∧
    c3DoneVipRow.status = QStatus.done ∧
    enforceQueueLogic 1 [c3UpNextRow, c3DoneVipRow, c3WaitVipRow] =
      ([{ c3UpNextRow with status := QStatus.waiting },
        { c3DoneVipRow with status := QStatus.upNext },
        c3WaitVipRow],
       [{ c3DoneVipRow with status := QStatus.upNext }]) := by
  decide

/-- Helper: a top candidate is a member of the queried list. -/
theorem topCandidate_mem : ∀ {l : List QueueEntry} {t : QueueEntry},
    topCandidate l = some t → t ∈ l := by
  intro l
  induction l with
  | nil => intro t h; simp [topCandidate] at h
  | cons e es ih =>
    intro t h
    simp only [topCandidate] at h
    cases hes : topCandidate es with
    | none => rw [hes] at h; simp at h; simp [h]
    | some t' =>
      rw [hes] at h
      by_cases hk : keyLt t' e = true
      · simp [hk] at h; right; exact h ▸ ih hes
      · simp [hk] at h; simp [h]

/-- Helper: `topCandidate` commutes with a map that preserves the VIP flag
and the creation time. -/
theorem topCandidate_map {f : QueueEntry → QueueEntry}
    (hk : ∀ e, (f e).is_vip = e.is_vip ∧ (f e).created_at = e.created_at) :
    ∀ l : List QueueEntry, topCandidate (l.map f) = (topCandidate l).map f := by
  have hlt : ∀ a b, keyLt (f a) (f b) = keyLt a b := by
    intro a b
    simp [keyLt, vipKey, (hk a).1, (hk b).1, (hk a).2, (hk b).2]
  intro l
  induction l with
  | nil => simp [topCandidate]
  | cons e es ih =>
    simp only [List.map_cons, topCandidate, ih]
    cases topCandidate es with
    | none => simp
    | some t =>
      simp only [Option.map_some']
      rw [hlt]
      by_cases h : keyLt t e = true <;> simp [h]

/-- Helper: a filter whose predicate is invariant under a map commutes
with that map. -/
theorem filter_map_comm {α : Type} (f : α → α) (p : α → Bool)
    (h : ∀ a, p (f a) = p a) :
    ∀ l : List α, (l.map f).filter p = (l.filter p).map f := by
  intro l
  induction l with
  | nil => simp
  | cons a l ih =>
    simp only [List.map_cons, List.filter_cons, h a]
    by_cases hp : p a = true <;> simp [hp, ih]

/-- Helper: mapping a function that fixes every member leaves the list
unchanged. -/
theorem map_eq_self {α : Type} {f : α → α} :
    ∀ {l : List α}, (∀ a ∈ l, f a = a) → l.map f = l := by
  intro l
  induction l with
  | nil => intro _; rfl
  | cons a l ih =>
    intro h
    simp only [List.map_cons, h a (by simp), ih fun b hb => h b (by simp [hb])]

/-- Helper: a `maybeSingle` data value of `some` pins the result list to a
singleton. -/
theorem maybeSingleData_eq_some {α : Type} {l : List α} {x : α}
    (h : maybeSingleData l = some x) : l = [x] := by
  match l with
  | [] => simp [maybeSingleData, maybeSingle] at h
  | [a] => simp [maybeSingleData, maybeSingle] at h; rw [h]
  | a :: b :: t => simp [maybeSingleData, maybeSingle] at h

/-- Helper: a `maybeSingle` data value of `none` on a result of at most one
row means the result was empty. -/
theorem maybeSingleData_eq_none {α : Type} {l : List α}
    (h : maybeSingleData l = none) (hlen : l.length ≤ 1) : l = [] := by
  match l with
  | [] => rfl
  | [a] => simp [maybeSingleData, maybeSingle] at h
  | a :: b :: t => simp at hlen

/-- Helper: a status update never changes the row id. -/
theorem statusUpd_id (i : Nat) (st : QStatus) (e : QueueEntry) :
    (statusUpd i st e).id = e.id := by
  unfold statusUpd; split <;> rfl

/-- Helper: a status update never changes the barber. -/
theorem statusUpd_barber (i : Nat) (st : QStatus) (e : QueueEntry) :
    (statusUpd i st e).barber_id = e.barber_id := by
  unfold statusUpd; split <;> rfl

/-- Helper: a status update never changes the VIP flag or creation time. -/
theorem statusUpd_key (i : Nat) (st : QStatus) (e : QueueEntry) :
    (statusUpd i st e).is_vip = e.is_vip ∧
    (statusUpd i st e).created_at = e.created_at := by
  unfold statusUpd; split <;> exact ⟨rfl, rfl⟩

/-- Helper: a status update fixes rows with a different id. -/
theorem statusUpd_of_ne {i : Nat} {st : QStatus} {e : QueueEntry}
    (h : e.id ≠ i) : statusUpd i st e = e := by
  unfold statusUpd
  simp [h]

/-- Helper: `setStatus` preserves the list of ids. -/
theorem setStatus_map_id (q : List QueueEntry) (i : Nat) (st : QStatus) :
    (setStatus q i st).map QueueEntry.id = q.map QueueEntry.id := by
  unfold setStatus
  rw [List.map_map]
  exact List.map_congr_left fun e _ => statusUpd_id i st e

/-- Helper: restriction to one barber commutes with `setStatus`. -/
theorem barberRows_setStatus (q : List QueueEntry) (b i : Nat) (st : QStatus) :
    barberRows (setStatus q i st) b = (barberRows q b).map (statusUpd i st) := by
  unfold barberRows setStatus
  exact filter_map_comm _ _ (fun e => by rw [statusUpd_barber]) q

/-- Helper: a row with a different id stays in the table across
`setStatus`. -/
theorem mem_setStatus_of_ne {q : List QueueEntry} {c : QueueEntry} {i : Nat}
    {st : QStatus} (hc : c ∈ q) (hne : c.id ≠ i) : c ∈ setStatus q i st := by
  have h : statusUpd i st c = c := statusUpd_of_ne hne
  exact h ▸ List.mem_map_of_mem (statusUpd i st) hc


/-- Helper: the filter predicate selecting a barber's Up Next rows. -/
def upPred (b : Nat) (e : QueueEntry) : Bool :=
  e.barber_id == b && e.status == QStatus.upNext

/-- Helper: `upNextRows` is a filter by `upPred`. -/
theorem upNextRows_eq_filter (q : List QueueEntry) (b : Nat) :
    upNextRows q b = q.filter (upPred b) := rfl

/-- Helper: demoting cannot create Up Next rows. -/
theorem upNextRows_setStatus_waiting {q : List QueueEntry} {b : Nat} {i : Nat}
    (hnone : upNextRows q b = []) :
    upNextRows (setStatus q i QStatus.waiting) b = [] := by
  induction q with
  | nil => rfl
  | cons e es ih =>
    rw [upNextRows_eq_filter, List.filter_cons] at hnone
    by_cases hp : upPred b e = true
    · rw [if_pos hp] at hnone; cases hnone
    · rw [if_neg hp] at hnone
      rw [setStatus, List.map_cons, upNextRows_eq_filter, List.filter_cons]
      have hp' : upPred b (statusUpd i QStatus.waiting e) ≠ true := by
        unfold statusUpd
        split
        · simp [upPred]
        · exact hp
      rw [if_neg hp']
      exact ih hnone

/-- Helper: promoting a row of the barber in a table with no Up Next row
and duplicate-free ids yields exactly that row as the Up Next set. -/
theorem upNextRows_setStatus_promote {q : List QueueEntry} {b : Nat}
    {c : QueueEntry} (hc : c ∈ q) (hb : c.barber_id = b)
    (hnodup : (q.map QueueEntry.id).Nodup)
    (hnone : upNextRows q b = []) :
    upNextRows (setStatus q c.id QStatus.upNext) b =
      [{ c with status := QStatus.upNext }] := by
  induction q with
  | nil => cases hc
  | cons e es ih =>
    simp only [List.map_cons, List.nodup_cons] at hnodup
    rw [upNextRows_eq_filter, List.filter_cons] at hnone
    by_cases hp : upPred b e = true
    · rw [if_pos hp] at hnone; cases hnone
    · rw [if_neg hp] at hnone
      rw [setStatus, List.map_cons, upNextRows_eq_filter, List.filter_cons]
      by_cases he : e.id = c.id
      · have hec : e = c := by
          rcases List.mem_cons.mp hc with h | h
          · exact h.symm
          · exact absurd (he ▸ List.mem_map_of_mem QueueEntry.id h) hnodup.1
        subst hec
        have h1 : statusUpd e.id QStatus.upNext e = { e with status := QStatus.upNext } := by
          unfold statusUpd; simp
        have h2 : es.map (statusUpd e.id QStatus.upNext) = es :=
          map_eq_self fun a ha => statusUpd_of_ne fun hid =>
            hnodup.1 (hid ▸ List.mem_map_of_mem QueueEntry.id ha)
        rw [h1, h2]
        have hkeep : upPred b { e with status := QStatus.upNext } = true := by
          simp [upPred, hb]
        rw [if_pos hkeep]
        rw [show List.filter (upPred b) es = [] from hnone]
      · have hcs : c ∈ es := by
          rcases List.mem_cons.mp hc with h | h
          · exact absurd (congrArg QueueEntry.id h.symm) he
          · exact h
        rw [statusUpd_of_ne he]
        rw [if_neg hp]
        have := ih hcs hnodup.2 hnone
        rw [setStatus, upNextRows_eq_filter] at this
        exact this

/-- Helper: demoting the unique Up Next row of a barber leaves the barber
with no Up Next row. -/
theorem upNextRows_setStatus_demote {q : List QueueEntry} {b : Nat}
    {u : QueueEntry} (hu : upNextRows q b = [u])
    (hnodup : (q.map QueueEntry.id).Nodup) :
    upNextRows (setStatus q u.id QStatus.waiting) b = [] := by
  induction q with
  | nil => cases hu
  | cons e es ih =>
    simp only [List.map_cons, List.nodup_cons] at hnodup
    rw [upNextRows_eq_filter, List.filter_cons] at hu
    by_cases hp : upPred b e = true
    · rw [if_pos hp] at hu
      rw [List.cons.injEq] at hu
      obtain ⟨heu, htail⟩ := hu
      subst heu
      rw [setStatus, List.map_cons, upNextRows_eq_filter, List.filter_cons]
      have h1 : statusUpd e.id QStatus.waiting e = { e with status := QStatus.waiting } := by
        unfold statusUpd; simp
      rw [h1]
      have hdrop : upPred b { e with status := QStatus.waiting } ≠ true := by
        simp [upPred]
      rw [if_neg hdrop]
      have htail' : upNextRows es b = [] := htail
      have : upNextRows (setStatus es e.id QStatus.waiting) b = [] :=
        upNextRows_setStatus_waiting htail'
      rw [setStatus, upNextRows_eq_filter] at this
      exact this
    · rw [if_neg hp] at hu
      have hus : u ∈ es := by
        have hmem : u ∈ upNextRows es b := by rw [upNextRows_eq_filter, hu]; simp
        exact (List.mem_filter.mp hmem).1
      have hne : e.id ≠ u.id := fun hid =>
        hnodup.1 (hid ▸ List.mem_map_of_mem QueueEntry.id hus)
      rw [setStatus, List.map_cons, upNextRows_eq_filter, List.filter_cons]
      rw [statusUpd_of_ne hne]
      rw [if_neg hp]
      have := ih hu hnodup.2
      rw [setStatus, upNextRows_eq_filter] at this
      exact this

/-- Single waiting row used to exhibit the non-empty second return of the
promotion engine. -/
def c2Row : QueueEntry :=
  { id := 1, barber_id := 1, created_at := 5, status := QStatus.waiting }

/-- C2 counterexample: starting from one Waiting row, the first
`enforceQueueLogic` call promotes it; the second call, with no intervening
mutation, returns the (unchanged) Up Next row — not the empty list the
claim requires. -/
theorem C2_second_call_counterexample :
    (enforceQueueLogic 1 (enforceQueueLogic 1 [c2Row]).1).2 =
      [{ c2Row with status := QStatus.upNext }] ∧
    (enforceQueueLogic 1 (enforceQueueLogic 1 [c2Row]).1).2 ≠ [] := by
  decide

/-- C2 amended: under duplicate-free ids and the single-Up-Next invariant,
a second `enforceQueueLogic` call with no intervening mutation changes no
row (the engine is idempotent on state), but its returned list is the
barber's current Up Next row set — a singleton whenever an Up Next row
exists — rather than the empty list. -/
theorem C2_second_call_state_idempotent (b : Nat) (q : List QueueEntry)
    (hnodup : (q.map QueueEntry.id).Nodup)
    (hone : (upNextRows q b).length ≤ 1) :
    (enforceQueueLogic b (enforceQueueLogic b q).1).1 = (enforceQueueLogic b q).1 ∧
    (enforceQueueLogic b (enforceQueueLogic b q).1).2 =
      upNextRows (enforceQueueLogic b q).1 b := by
  rcases h1 : maybeSingleData (upNextRows q b) with _ | u
  · rcases h2 : topCandidate (barberRows q b) with _ | c
    · have hnone : upNextRows q b = [] := maybeSingleData_eq_none h1 hone
      have hcall1 : enforceQueueLogic b q = (q, []) := by
        simp only [enforceQueueLogic, h1, h2]
      rw [hcall1, hcall1]
      exact ⟨rfl, hnone.symm⟩
    · -- Scenario A: promotion into an empty Up Next slot
      have hnone : upNextRows q b = [] := maybeSingleData_eq_none h1 hone
      have hcb' : c ∈ barberRows q b := topCandidate_mem h2
      have hcq : c ∈ q := (List.mem_filter.mp hcb').1
      have hcb : c.barber_id = b := by
        have := (List.mem_filter.mp hcb').2
        simpa using this
      have hup1 : upNextRows (setStatus q c.id QStatus.upNext) b =
          [{ c with status := QStatus.upNext }] :=
        upNextRows_setStatus_promote hcq hcb hnodup hnone
      have hcall1 : enforceQueueLogic b q =
          (setStatus q c.id QStatus.upNext, [{ c with status := QStatus.upNext }]) := by
        simp only [enforceQueueLogic, h1, h2]
      have hms : maybeSingleData (upNextRows (setStatus q c.id QStatus.upNext) b) =
          some { c with status := QStatus.upNext } := by
        rw [hup1]; rfl
      have htop : topCandidate (barberRows (setStatus q c.id QStatus.upNext) b) =
          some { c with status := QStatus.upNext } := by
        rw [barberRows_setStatus, topCandidate_map (statusUpd_key c.id QStatus.upNext), h2]
        simp only [Option.map_some']
        unfold statusUpd
        simp
      have hcall2 : enforceQueueLogic b (setStatus q c.id QStatus.upNext) =
          (setStatus q c.id QStatus.upNext, [{ c with status := QStatus.upNext }]) := by
        simp only [enforceQueueLogic, hms, htop]
        cases hv : c.is_vip <;> simp [hv]
      rw [hcall1, hcall2, hup1]
      exact ⟨rfl, rfl⟩
  · rcases h2 : topCandidate (barberRows q b) with _ | c
    · have hueq : upNextRows q b = [u] := maybeSingleData_eq_some h1
      have hcall1 : enforceQueueLogic b q = (q, [u]) := by
        simp only [enforceQueueLogic, h1, h2]
      rw [hcall1, hcall1]
      exact ⟨rfl, hueq.symm⟩
    · have hueq : upNextRows q b = [u] := maybeSingleData_eq_some h1
      by_cases hvip : (!u.is_vip && c.is_vip) = true
      · -- Scenario B: VIP bump
        have hvip' : u.is_vip = false ∧ c.is_vip = true := by
          simpa using hvip
        have huvip : u.is_vip = false := hvip'.1
        have hcvip : c.is_vip = true := hvip'.2
        have humem : u ∈ upNextRows q b := by rw [hueq]; simp
        have huq : u ∈ q := (List.mem_filter.mp humem).1
        have hcb' : c ∈ barberRows q b := topCandidate_mem h2
        have hcq : c ∈ q := (List.mem_filter.mp hcb').1
        have hcb : c.barber_id = b := by
          have := (List.mem_filter.mp hcb').2
          simpa using this
        have hne_uc : u ≠ c := by
          intro h
          rw [h, hcvip] at huvip
          cases huvip
        have hid : c.id ≠ u.id := fun h =>
          hne_uc (List.inj_on_of_nodup_map hnodup huq hcq h.symm)
        have hupA : upNextRows (setStatus q u.id QStatus.waiting) b = [] :=
          upNextRows_setStatus_demote hueq hnodup
        have hnodup1 :
            ((setStatus q u.id QStatus.waiting).map QueueEntry.id).Nodup := by
          rw [setStatus_map_id]; exact hnodup
        have hc1 : c ∈ setStatus q u.id QStatus.waiting :=
          mem_setStatus_of_ne hcq hid
        have hup2 : upNextRows
            (setStatus (setStatus q u.id QStatus.waiting) c.id QStatus.upNext) b =
            [{ c with status := QStatus.upNext }] :=
          upNextRows_setStatus_promote hc1 hcb hnodup1 hupA
        have hcall1 : enforceQueueLogic b q =
            (setStatus (setStatus q u.id QStatus.waiting) c.id QStatus.upNext,
             [{ c with status := QStatus.upNext }]) := by
          simp only [enforceQueueLogic, h1, h2, hvip, if_true]
        have hms : maybeSingleData (upNextRows
            (setStatus (setStatus q u.id QStatus.waiting) c.id QStatus.upNext) b) =
            some { c with status := QStatus.upNext } := by
          rw [hup2]; rfl
        have htop : topCandidate (barberRows
            (setStatus (setStatus q u.id QStatus.waiting) c.id QStatus.upNext) b) =
            some { c with status := QStatus.upNext } := by
          rw [barberRows_setStatus, topCandidate_map (statusUpd_key c.id QStatus.upNext),
            barberRows_setStatus, topCandidate_map (statusUpd_key u.id QStatus.waiting), h2]
          simp only [Option.map_some']
          rw [statusUpd_of_ne hid]
          unfold statusUpd
          simp
        have hcall2 : enforceQueueLogic b
            (setStatus (setStatus q u.id QStatus.waiting) c.id QStatus.upNext) =
            (setStatus (setStatus q u.id QStatus.waiting) c.id QStatus.upNext,
             [{ c with status := QStatus.upNext }]) := by
          simp only [enforceQueueLogic, hms, htop]
          simp [hcvip]
        rw [hcall1, hcall2, hup2]
        exact ⟨rfl, rfl⟩
      · -- Scenario C: no change, current Up Next returned
        have hcall1 : enforceQueueLogic b q = (q, [u]) := by
          simp only [enforceQueueLogic, h1, h2]
          simp [hvip]
        rw [hcall1, hcall1]
        exact ⟨rfl, hueq.symm⟩

/-- C2 amended witness: the amended statement instantiated on a concrete
single-row store. -/
theorem C2_second_call_state_idempotent_witness :
    ((([c2Row].map QueueEntry.id).Nodup ∧ (upNextRows [c2Row] 1).length ≤ 1) ∧
     ((enforceQueueLogic 1 (enforceQueueLogic 1 [c2Row]).1).1 =
        (enforceQueueLogic 1 [c2Row]).1 ∧
      (enforceQueueLogic 1 (enforceQueueLogic 1 [c2Row]).1).2 =
        upNextRows (enforceQueueLogic 1 [c2Row]).1 1)) :=
  ⟨⟨by decide, by decide⟩,
   C2_second_call_state_idempotent 1 [c2Row] (by decide) (by decide)⟩

/-- Overlap test of the slot calculator and booking endpoint:
`existingStart < candidateEnd AND existingEnd > candidateStart`
(half-open interval intersection). -/
def isTaken (bs : List Appointment) (s e : Nat) : Bool :=
  bs.any (fun bk => decide (bk.scheduled_time < e) && decide (bk.end_time > s))

/-- Service duration resolution shared by the slot and booking endpoints:
`service?.duration_minutes || 30` after `.eq('id', sid).single()`
(a missing row, a duplicated id, or a zero duration all fall back to 30). -/
def resolveDuration (svcs : List Service) (sid : Nat) : Nat :=
  match maybeSingleData (svcs.filter (fun s => s.id == sid)) with
  | some s => if s.duration_minutes == 0 then 30 else s.duration_minutes
  | none => 30

/-- Confirmed appointments of the barber whose start lies in the queried
day (`gte(dbStart)`/`lte(dbEnd)` with the day bounds `00:00:00+08:00` and
`23:59:59+08:00`; `dayStart` is the instant of local midnight). -/
def dayBookings (apts : List Appointment) (barber dayStart : Nat) : List Appointment :=
  apts.filter (fun a => a.barber_id == barber && a.status == AStatus.confirmed
    && decide (dayStart ≤ a.scheduled_time) && decide (a.scheduled_time ≤ dayStart + 1439))

/-- Slot loop of `GET /api/appointments/slots` (server.js 488-515): walk the
30-minute grid from `t` while before closing; stop at the first slot whose
end passes closing; skip past slots and taken slots; emit the rest. -/
def slotsFrom (close d now : Nat) (bs : List Appointment) (t : Nat) : List Nat :=
  if h : t < close then
    if close < t + d then []
    else if t < now then slotsFrom close d now bs (t + 30)
    else if isTaken bs t (t + d) then slotsFrom close d now bs (t + 30)
    else t :: slotsFrom close d now bs (t + 30)
  else []
termination_by close - t
decreasing_by all_goals omega

/-- The 30-minute grid of instants from `t` (inclusive) to `close`
(exclusive). -/
def grid (close t : Nat) : List Nat :=
  if h : t < close then t :: grid close (t + 30) else []
termination_by close - t
decreasing_by omega

/-- Slot calculator `GET /api/appointments/slots` (server.js 449-523):
opening 10:30 and closing 19:00 in the shop's fixed UTC+8 offset
(`dayStart` is the instant of shop-local midnight of the requested date,
so opening is `dayStart + 630` and closing `dayStart + 1140` minutes). -/
def slotsEndpoint (svcs : List Service) (apts : List Appointment)
    (barber sid dayStart now : Nat) : List Nat :=
  slotsFrom (dayStart + 1140) (resolveDuration svcs sid) now
    (dayBookings apts barber dayStart) (dayStart + 630)

/-- Helper: members of the grid are at or after its starting instant. -/
theorem grid_mem_ge_aux :
    ∀ (n close t u : Nat), close - t ≤ n → u ∈ grid close t → t ≤ u := by
  intro n
  induction n with
  | zero =>
    intro close t u h hu
    rw [grid.eq_def] at hu
    rw [dif_neg (by omega)] at hu
    cases hu
  | succ n ih =>
    intro close t u h hu
    rw [grid.eq_def] at hu
    by_cases hlt : t < close
    · rw [dif_pos hlt] at hu
      rcases List.mem_cons.mp hu with rfl | hu'
      · exact Nat.le_refl _
      · have := ih close (t + 30) u (by omega) hu'
        omega
    · rw [dif_neg hlt] at hu
      cases hu

/-- Helper: members of the grid are at or after its starting instant. -/
theorem grid_mem_ge {close t u : Nat} (hu : u ∈ grid close t) : t ≤ u :=
  grid_mem_ge_aux (close - t) close t u (Nat.le_refl _) hu

/-- Helper: the grid is strictly increasing. -/
theorem grid_pairwise_aux :
    ∀ (n close t : Nat), close - t ≤ n → (grid close t).Pairwise (· < ·) := by
  intro n
  induction n with
  | zero =>
    intro close t h
    rw [grid.eq_def, dif_neg (by omega)]
    exact List.Pairwise.nil
  | succ n ih =>
    intro close t h
    rw [grid.eq_def]
    by_cases hlt : t < close
    · rw [dif_pos hlt]
      refine List.pairwise_cons.mpr ⟨?_, ih close (t + 30) (by omega)⟩
      intro u hu
      have := grid_mem_ge hu
      omega
    · rw [dif_neg hlt]
      exact List.Pairwise.nil

/-- Helper: the grid is strictly increasing. -/
theorem grid_pairwise (close t : Nat) : (grid close t).Pairwise (· < ·) :=
  grid_pairwise_aux (close - t) close t (Nat.le_refl _)

/-- Helper: the slot loop computes exactly the grid filtered by the three
slot conditions (end before closing, not in the past, not taken). -/
theorem slotsFrom_eq_aux (close d now : Nat) (bs : List Appointment) :
    ∀ (n t : Nat), close - t ≤ n →
      slotsFrom close d now bs t =
        (grid close t).filter
          (fun u => decide (u + d ≤ close) && decide (now ≤ u) &&
            !isTaken bs u (u + d)) := by
  intro n
  induction n with
  | zero =>
    intro t h
    rw [slotsFrom.eq_def, grid.eq_def, dif_neg (by omega), dif_neg (by omega)]
    rfl
  | succ n ih =>
    intro t h
    rw [slotsFrom.eq_def, grid.eq_def]
    by_cases hlt : t < close
    · rw [dif_pos hlt, dif_pos hlt, List.filter_cons]
      by_cases h1 : close < t + d
      · rw [if_pos h1]
        have hpt : (decide (t + d ≤ close) && decide (now ≤ t) &&
            !isTaken bs t (t + d)) = false := by
          have : ¬(t + d ≤ close) := by omega
          simp [this]
        rw [hpt]
        simp only [Bool.false_eq_true, if_false]
        symm
        rw [List.filter_eq_nil_iff]
        intro u hu
        have hge : t + 30 ≤ u := grid_mem_ge hu
        have : ¬(u + d ≤ close) := by omega
        simp [this]
      · rw [if_neg h1]
        by_cases h2 : t < now
        · rw [if_pos h2]
          have hpt : (decide (t + d ≤ close) && decide (now ≤ t) &&
              !isTaken bs t (t + d)) = false := by
            have : ¬(now ≤ t) := by omega
            simp [this]
          rw [hpt]
          simp only [Bool.false_eq_true, if_false]
          exact ih (t + 30) (by omega)
        · rw [if_neg h2]
          by_cases h3 : isTaken bs t (t + d) = true
          · rw [if_pos h3]
            have hpt : (decide (t + d ≤ close) && decide (now ≤ t) &&
                !isTaken bs t (t + d)) = false := by
              simp [h3]
            rw [hpt]
            simp only [Bool.false_eq_true, if_false]
            exact ih (t + 30) (by omega)
          · rw [if_neg h3]
            have hpt : (decide (t + d ≤ close) && decide (now ≤ t) &&
                !isTaken bs t (t + d)) = true := by
              have hd : t + d ≤ close := by omega
              have hn : now ≤ t := by omega
              simp [hd, hn, h3]
            rw [hpt]
            simp only [if_true]
            rw [ih (t + 30) (by omega)]
    · rw [dif_neg hlt, dif_neg hlt]
      rfl

/-- C4: the slot calculator returns exactly the 30-minute grid points from
10:30 (shop time) strictly before 19:00 whose service interval ends by
19:00, that are not in the past, and that overlap no confirmed appointment
of the barber on the requested day under the half-open test
`existingStart < candidateEnd AND existingEnd > candidateStart`; the
returned sequence is strictly increasing. -/
theorem C4_slots_exact (svcs : List Service) (apts : List Appointment)
    (barber sid dayStart now : Nat) :
    slotsEndpoint svcs apts barber sid dayStart now =
      (grid (dayStart + 1140) (dayStart + 630)).filter
        (fun u => decide (u + resolveDuration svcs sid ≤ dayStart + 1140) &&
          decide (now ≤ u) &&
          !isTaken (dayBookings apts barber dayStart) u
            (u + resolveDuration svcs sid)) ∧
    (slotsEndpoint svcs apts barber sid dayStart now).Pairwise (· < ·) := by
  have heq := slotsFrom_eq_aux (dayStart + 1140) (resolveDuration svcs sid) now
    (dayBookings apts barber dayStart)
    ((dayStart + 1140) - (dayStart + 630)) (dayStart + 630) (Nat.le_refl _)
  refine ⟨heq, ?_⟩
  unfold slotsEndpoint
  rw [heq]
  exact List.Pairwise.filter _ (grid_pairwise _ _)

/-- Outcome of `POST /api/appointments/book`: the 400 lead-time rejection,
the 409 conflict rejection, or the 201 insertion. -/
inductive BookResult where
  | validationErr
  | conflictErr
  | created (a : Appointment)
deriving DecidableEq, Repr

/-- Calendar day of an instant in UTC, the value of
`new Date(t).toISOString().split('T')[0]`. -/
def utcDay (t : Nat) : Nat := t / 1440

/-- Calendar day of an instant shifted to UTC+8, the value of
`new Date(t + 8*60*60*1000).toISOString().split('T')[0]` used for "today"
in the booking endpoint. -/
def phDay (t : Nat) : Nat := (t + 480) / 1440

/-- Appointment row inserted by a successful booking: confirmed,
not converted, end = start + duration. -/
def bookRow (barber sid start dur newId : Nat) : Appointment :=
  { id := newId, barber_id := barber, service_id := sid,
    scheduled_time := start, end_time := start + dur,
    status := AStatus.confirmed, is_converted_to_queue := false }

/-- Booking endpoint `POST /api/appointments/book` (server.js 530-626):
reject when the UTC date of the requested start is on or before today's
UTC+8 date; otherwise compute the end from the service duration, reject
with 409 when the conflict query (confirmed rows of the barber with
`scheduled_time < end` and `end_time > start`, read through
`maybeSingle()` with its error ignored) yields a row, else insert the
appointment as confirmed and unconverted. -/
def book (svcs : List Service) (apts : List Appointment)
    (barber sid start nowT newId : Nat) : List Appointment × BookResult :=
  if utcDay start ≤ phDay nowT then (apts, BookResult.validationErr)
  else
    match maybeSingleData (apts.filter (fun a => a.barber_id == barber &&
        a.status == AStatus.confirmed &&
        decide (a.scheduled_time < start + resolveDuration svcs sid) &&
        decide (a.end_time > start))) with
    | some _ => (apts, BookResult.conflictErr)
    | none =>
        (apts ++ [bookRow barber sid start (resolveDuration svcs sid) newId],
         BookResult.created (bookRow barber sid start (resolveDuration svcs sid) newId))

/-- C5 counterexample: `now = 0` is midnight UTC of day 0 (08:00 shop time,
shop date day 0), and `start = 1020` is 17:00 UTC of day 0, which is 01:00
shop time on day 1.  The start's shop-local (UTC+8) date is strictly after
today's shop-local date, so the claim requires acceptance, but the
endpoint rejects: it takes the start's date in UTC. -/
theorem C5_next_day_shop_time_rejected :
    phDay 0 < phDay 1020 ∧
    (book [{ id := 1 }] [] 1 1 1020 0 9).2 = BookResult.validationErr := by
  decide

/-- C5 amended: the booking endpoint rejects with the lead-time validation
error exactly when the UTC calendar date of the requested start is on or
before today's date in the shop's UTC+8 timezone, and in that case the
appointment table is left unchanged. -/
theorem C5_lead_time_utc_date (svcs : List Service) (apts : List Appointment)
    (barber sid start nowT newId : Nat) :
    ((book svcs apts barber sid start nowT newId).2 = BookResult.validationErr ↔
      utcDay start ≤ phDay nowT) ∧
    (utcDay start ≤ phDay nowT →
      book svcs apts barber sid start nowT newId = (apts, BookResult.validationErr)) := by
  constructor
  · constructor
    · intro h
      by_contra hnot
      unfold book at h
      rw [if_neg hnot] at h
      split at h <;> simp_all
    · intro h
      unfold book
      rw [if_pos h]
  · intro h
    unfold book
    rw [if_pos h]

/-- C5 amended witness: the amended rejection rule applied at the concrete
counterexample input. -/
theorem C5_lead_time_utc_date_witness :
    utcDay 1020 ≤ phDay 0 ∧
    book [{ id := 1 }] [] 1 1 1020 0 9 = ([], BookResult.validationErr) :=
  ⟨by decide, (C5_lead_time_utc_date [{ id := 1 }] [] 1 1 1020 0 9).2 (by decide)⟩

/-- Existing confirmed half-hour appointment at minutes 3000-3030 for
barber 1. -/
def c6ApptA : Appointment :=
  { id := 10, barber_id := 1, scheduled_time := 3000, end_time := 3030,
    status := AStatus.confirmed }

/-- Adjacent existing confirmed half-hour appointment at 3030-3060 for the
same barber. -/
def c6ApptB : Appointment :=
  { id := 11, barber_id := 1, scheduled_time := 3030, end_time := 3060,
    status := AStatus.confirmed }

/-- C6: booking a 60-minute service at minute 3000 overlaps both existing
confirmed appointments, so the claim requires a ConflictError and no
insertion.  The conflict query matches two rows, `maybeSingle()` turns
that into an error whose `data` is null, the endpoint ignores the error
field, sees no conflict, and inserts the overlapping appointment. -/
theorem C6_conflict_check_misses_two_rows :
    (c6ApptA.status = AStatus.confirmed ∧ c6ApptA.barber_id = 1 ∧
     c6ApptA.scheduled_time < 3000 + 60 ∧ c6ApptA.end_time > 3000) ∧
    book [{ id := 1, duration_minutes := 60 }] [c6ApptA, c6ApptB] 1 1 3000 0 12 =
      ([c6ApptA, c6ApptB, bookRow 1 1 3000 60 12],
       BookResult.created (bookRow 1 1 3000 60 12)) := by
  decide

/-- Full backend store: the four tables the embedded endpoints touch. -/
structure Store where
  queue : List QueueEntry
  appts : List Appointment
  services : List Service
  charges : List Charge
deriving DecidableEq, Repr

/-- Outcome of `POST /api/queue/complete`: the 400 input rejection, the 500
price-lookup failure, or the 200 success carrying the logged total. -/
inductive CompleteResult where
  | badReq
  | fetchErr
  | okDone (total : Int)
deriving DecidableEq, Repr

/-- Head count used for the charge: `queueEntry.head_count || 1`
(a zero head count falls back to 1). -/
def headCountOr1 (e : QueueEntry) : Nat :=
  if e.head_count == 0 then 1 else e.head_count

/-- Total charge logged on completion:
`servicePrice * headCount + tipInt + vipChargeInt`. -/
def completeTotal (price : Int) (e : QueueEntry) (tip vip : Int) : Int :=
  price * (headCountOr1 e : Int) + tip + vip

/-- Completion endpoint `POST /api/queue/complete` (server.js 1493-1549):
reject negative tip or VIP charge; fetch the entry (any status) with its
service price; compute the total charge; run the conditional update
`status = 'Done' where id = qid and status = 'In Progress'` — an update
matching zero rows yields no error — then insert the ledger row and
report success. -/
def completeCut (st : Store) (qid barber : Nat) (tip vip : Int) :
    Store × CompleteResult :=
  if tip < 0 ∨ vip < 0 then (st, CompleteResult.badReq)
  else
    match maybeSingleData (st.queue.filter (fun e => e.id == qid)) with
    | none => (st, CompleteResult.fetchErr)
    | some e =>
      match (maybeSingleData (st.services.filter
          (fun s => s.id == e.service_id))).bind Service.price_php with
      | none => (st, CompleteResult.fetchErr)
      | some price =>
        ({ st with
            queue := st.queue.map (fun x =>
              if x.id == qid && x.status == QStatus.inProgress then
                { x with status := QStatus.done }
              else x),
            charges := st.charges ++
              [⟨barber, completeTotal price e tip vip, headCountOr1 e⟩] },
         CompleteResult.okDone (completeTotal price e tip vip))

/-- Waiting entry (not In Progress) that `/api/queue/complete` is invoked
on in the C7 failing input. -/
def c7Entry : QueueEntry :=
  { id := 5, barber_id := 1, service_id := 1, head_count := 2,
    created_at := 0, status := QStatus.waiting }

/-- Store around `c7Entry`: its service costs 100. -/
def c7Store : Store :=
  { queue := [c7Entry], appts := [],
    services := [{ id := 1, price_php := some 100 }], charges := [] }

/-- C7: completing a cut whose entry is Waiting (not In Progress) must
fail with an error and record no charge per the claim.  Instead the
conditional update matches zero rows without error, the endpoint logs the
charge `100 × 2 + 10 + 5 = 215` anyway and reports success, while the
entry keeps status Waiting. -/
theorem C7_complete_charges_without_in_progress :
    c7Entry.status ≠ QStatus.inProgress ∧
    completeCut c7Store 5 1 10 5 =
      ({ c7Store with charges := [⟨1, 215, 2⟩] }, CompleteResult.okDone 215) ∧
    (completeCut c7Store 5 1 10 5).1.queue = [c7Entry] := by
  decide

/-- Oracle recording which awaited calls inside `enforceQueueLogic`'s
try-block throw (an awaited promise rejecting): the Up Next select, the
candidate select, the demote update, the promote update. -/
structure DbFx where
  q1 : Bool := false
  q2 : Bool := false
  w1 : Bool := false
  w2 : Bool := false
deriving DecidableEq, Repr

/-- Oracle under which no awaited call throws. -/
def noFx : DbFx := {}

/-- Try-block of `enforceQueueLogic` under a throw oracle: the table state
reached so far together with either the returned value or the thrown
error; mutations made before a throw persist. -/
def enforceBodyFx (b : Nat) (o : DbFx) (q : List QueueEntry) :
    List QueueEntry × Except Unit (List QueueEntry) :=
  if o.q1 then (q, Except.error ())
  else if o.q2 then (q, Except.error ())
  else
    match maybeSingleData (upNextRows q b), topCandidate (barberRows q b) with
    | none, some c =>
        if o.w2 then (q, Except.error ())
        else (setStatus q c.id QStatus.upNext,
              Except.ok [{ c with status := QStatus.upNext }])
    | some u, some c =>
        if !u.is_vip && c.is_vip then
          if o.w1 then (q, Except.error ())
          else if o.w2 then (setStatus q u.id QStatus.waiting, Except.error ())
          else (setStatus (setStatus q u.id QStatus.waiting) c.id QStatus.upNext,
                Except.ok [{ c with status := QStatus.upNext }])
        else (q, Except.ok [u])
    | some u, none => (q, Except.ok [u])
    | none, none => (q, Except.ok [])

/-- `enforceQueueLogic` with its catch handler (server.js 137-140): a
thrown error is caught and the function returns the empty list. -/
def enforceQueueLogicFx (b : Nat) (o : DbFx) (q : List QueueEntry) :
    List QueueEntry × List QueueEntry :=
  match enforceBodyFx b o q with
  | (q2, Except.error _) => (q2, [])
  | (q2, Except.ok l) => (q2, l)

/-- Helper: with no throwing call the oracle version of the engine is the
plain engine. -/
theorem enforceFx_noFx (b : Nat) (q : List QueueEntry) :
    enforceQueueLogicFx b noFx q = enforceQueueLogic b q := by
  unfold enforceQueueLogicFx enforceBodyFx enforceQueueLogic noFx
  simp only [Bool.false_eq_true, if_false]
  rcases maybeSingleData (upNextRows q b) with _ | u <;>
    rcases topCandidate (barberRows q b) with _ | c
  · rfl
  · rfl
  · rfl
  · by_cases h : (!u.is_vip && c.is_vip) = true <;> simp [h]

/-- Environment of one notification attempt: whether the n8n webhook URL
is configured, whether the dispatch post succeeds, whether the context
fetch succeeds. -/
structure NotifyEnv where
  webhook : Bool
  dispatchOk : Bool
  contextOk : Bool
deriving DecidableEq, Repr

/-- Observable outcome of a notification routine: whether a dispatch was
attempted, whether it succeeded, and whether the notified-up-next flag
was written to true. -/
structure NotifyOutcome where
  attempted : Bool
  succeeded : Bool
  flagSet : Bool
deriving DecidableEq, Repr

/-- Outcome when no notification step runs. -/
def noNotify : NotifyOutcome :=
  { attempted := false, succeeded := false, flagSet := false }

/-- Sweep-path notifier `processUpNextNotification` (server.js 147-188):
missing context aborts with nothing written; with an email and a
configured webhook the post is awaited and the flag is set only after it
succeeds (a throw is caught and leaves the flag untouched for the next
cron tick); with no email or no webhook the flag is set without any
dispatch. -/
def processUpNextNotification (e : QueueEntry) (env : NotifyEnv) : NotifyOutcome :=
  if !env.contextOk then { attempted := false, succeeded := false, flagSet := false }
  else if e.customer_email.isSome && env.webhook then
    if env.dispatchOk then { attempted := true, succeeded := true, flagSet := true }
    else { attempted := true, succeeded := false, flagSet := false }
  else { attempted := false, succeeded := false, flagSet := true }

/-- Join-path notification step (server.js 1169-1188): the flag is marked
true first ("Mark as notified immediately to avoid duplicates from
cron"), then the webhook is fired without awaiting its outcome. -/
def joinNotify (pe : QueueEntry) (env : NotifyEnv) : NotifyOutcome :=
  { attempted := pe.customer_email.isSome && env.webhook && env.contextOk,
    succeeded := pe.customer_email.isSome && env.webhook && env.contextOk && env.dispatchOk,
    flagSet := true }

/-- Sweep scan of the notification cron (server.js 2225-2245): Up Next
rows whose notified-up-next flag is still false. -/
def sweepPending (q : List QueueEntry) : List QueueEntry :=
  q.filter (fun e => e.status == QStatus.upNext && e.notified_up_next == false)

/-- Outcome of `POST /api/queue`. -/
inductive JoinResult where
  | badReq
  | conflictDup
  | serverErr
  | created (e : QueueEntry)
deriving DecidableEq, Repr

/-- Active rows of a user, the duplicate-join blocking query:
`.eq('user_id', u).in('status', ['Waiting', 'Up Next', 'In Progress'])`. -/
def activeFor (q : List QueueEntry) (u : Nat) : List QueueEntry :=
  q.filter (fun e => e.user_id == some u &&
    (e.status == QStatus.waiting || e.status == QStatus.upNext ||
     e.status == QStatus.inProgress))

/-- Request body of a join. -/
structure JoinReq where
  customer_name : String := "guest"
  uid : Option Nat := none
  barber : Nat
  service : Nat := 1
  vip : Bool := false
  email : Option String := none
deriving DecidableEq, Repr

/-- Modelled from the spec: the database function `join_queue_auto_assign`
is not part of the repository.  Per the spec a join creates the entry with
status Waiting ("created on join (status = Waiting, unless immediately
promoted)") and the endpoint comment reads "Initially puts user in
'Waiting'". -/
def joinInsertRow (r : JoinReq) (newId created : Nat) : QueueEntry :=
  { id := newId, barber_id := r.barber, user_id := r.uid,
    customer_email := r.email, service_id := r.service, head_count := 1,
    is_vip := r.vip, created_at := created, status := QStatus.waiting,
    notified_up_next := false }

/-- Flag write `update({ notified_up_next: true }).eq('id', i)`. -/
def setNotified (q : List QueueEntry) (i : Nat) : List QueueEntry :=
  q.map (fun e => if e.id == i then { e with notified_up_next := true } else e)

/-- Insert-and-promote tail of the join endpoint, reached once the
duplicate check passes: insert the Waiting row, run the engine, and if the
new entry came back promoted to Up Next, mark it notified and fire the
webhook fire-and-forget. -/
def joinInsertAndPromote (r : JoinReq) (newId created : Nat) (o : DbFx)
    (env : NotifyEnv) (q : List QueueEntry) :
    List QueueEntry × JoinResult × NotifyOutcome :=
  match enforceQueueLogicFx r.barber o (q ++ [joinInsertRow r newId created]) with
  | (q2, promoted) =>
    match promoted.find? (fun c => c.id == newId) with
    | some pe =>
      if pe.status == QStatus.upNext then
        (setNotified q2 newId, JoinResult.created pe, joinNotify pe env)
      else (q2, JoinResult.created pe, noNotify)
    | none => (q2, JoinResult.created (joinInsertRow r newId created), noNotify)

/-- Join endpoint `POST /api/queue` (server.js 1073-1217): an empty name is
a 400; with a user id the duplicate-active check runs first — its
`maybeSingle` error field IS checked here, so a multi-row result is a 500
and an active row is a 409, in both cases with nothing inserted; then the
insert-and-promote tail runs. -/
def joinQueue (r : JoinReq) (newId created : Nat) (o : DbFx) (env : NotifyEnv)
    (q : List QueueEntry) : List QueueEntry × JoinResult × NotifyOutcome :=
  if r.customer_name == "" then (q, JoinResult.badReq, noNotify)
  else
    match r.uid with
    | some u =>
      match maybeSingle (activeFor q u) with
      | MaybeSingle.err => (q, JoinResult.serverErr, noNotify)
      | MaybeSingle.ok (some _) => (q, JoinResult.conflictDup, noNotify)
      | MaybeSingle.ok none => joinInsertAndPromote r newId created o env q
    | none => joinInsertAndPromote r newId created o env q

/-- Finished (Done) entry of user 7, older than everything else for
barber 1. -/
def c8DoneRow : QueueEntry :=
  { id := 1, barber_id := 1, user_id := some 7, created_at := 5,
    status := QStatus.done }

/-- In Progress entry of the same user 7 with barber 1. -/
def c8InProgRow : QueueEntry :=
  { id := 2, barber_id := 1, user_id := some 7, created_at := 6,
    status := QStatus.inProgress }

/-- Join request of a different user 9 for barber 1. -/
def c8OtherReq : JoinReq := { uid := some 9, barber := 1 }

/-- Duplicate join request of user 7, who is already In Progress. -/
def c8DupReq : JoinReq := { uid := some 7, barber := 1 }

/-- Notification environment in which everything succeeds. -/
def envAll : NotifyEnv := { webhook := true, dispatchOk := true, contextOk := true }

/-- C8: the duplicate-join guard itself holds — user 7, already In
Progress, is rejected with the 409 conflict and nothing is inserted — but
the claimed consequence fails: after user 9's perfectly valid join, the
promotion engine's unfiltered candidate query revives user 7's Done entry
to Up Next, leaving user 7 with two entries in
{Waiting, Up Next, In Progress} at once. -/
theorem C8_user_gains_second_active_entry :
    (activeFor [c8DoneRow, c8InProgRow] 7).length = 1 ∧
    joinQueue c8DupReq 3 100 noFx envAll [c8DoneRow, c8InProgRow] =
      ([c8DoneRow, c8InProgRow], JoinResult.conflictDup, noNotify) ∧
    (joinQueue c8OtherReq 3 100 noFx envAll [c8DoneRow, c8InProgRow]).2.1 =
      JoinResult.created (joinInsertRow c8OtherReq 3 100) ∧
    (activeFor (joinQueue c8OtherReq 3 100 noFx envAll
        [c8DoneRow, c8InProgRow]).1 7).length = 2 := by
  decide

/-- Join request of an anonymous customer carrying an email, used for the
notification counterexample. -/
def c9Req : JoinReq := { uid := none, barber := 1, email := some "a@b.c" }

/-- Environment in which the webhook is configured and context loads but
the dispatch post fails. -/
def c9Env : NotifyEnv := { webhook := true, dispatchOk := false, contextOk := true }

/-- C9 counterexample: joining an empty queue promotes the new entry to Up
Next; the join endpoint sets `notified_up_next = true` BEFORE firing the
webhook; with the dispatch failing, the flag is nevertheless true and the
sweep query finds nothing to retry — the due notification is silently
dropped, contradicting the claim that the flag is set only after a
successful dispatch. -/
theorem C9_join_flags_before_dispatch :
    (joinQueue c9Req 3 10 noFx c9Env []).2.2.flagSet = true ∧
    (joinQueue c9Req 3 10 noFx c9Env []).2.2.succeeded = false ∧
    sweepPending (joinQueue c9Req 3 10 noFx c9Env []).1 = [] := by
  decide

/-- C9 amended: in the sweep path (`processUpNextNotification`) the flag is
set true only after a successful dispatch or when dispatch is not
applicable (no customer email, or no webhook configured), and a failed
dispatch attempt leaves the flag false so the next cron tick retries; the
join endpoint, by contrast, always marks the flag true before its
dispatch attempt, so a join-time dispatch failure is never retried. -/
theorem C9_flag_only_after_dispatch_in_sweep (e : QueueEntry) (env : NotifyEnv) :
    ((processUpNextNotification e env).flagSet = true →
      (processUpNextNotification e env).succeeded = true ∨
        e.customer_email = none ∨ env.webhook = false) ∧
    ((processUpNextNotification e env).attempted = true ∧ env.dispatchOk = false →
      (processUpNextNotification e env).flagSet = false) ∧
    (joinNotify e env).flagSet = true := by
  rcases env with ⟨w, d, c⟩
  rcases he : e.customer_email with _ | v <;>
    cases w <;> cases d <;> cases c <;>
    simp [processUpNextNotification, joinNotify, he]

/-- Up Next row with an email, used to instantiate the amended C9
statement. -/
def c9SweepRow : QueueEntry :=
  { id := 4, barber_id := 1, customer_email := some "a@b.c",
    created_at := 0, status := QStatus.upNext }

/-- C9 amended witness: a failed sweep dispatch at a concrete entry leaves
the flag false. -/
theorem C9_flag_only_after_dispatch_in_sweep_witness :
    ((processUpNextNotification c9SweepRow c9Env).attempted = true ∧
      c9Env.dispatchOk = false) ∧
    (processUpNextNotification c9SweepRow c9Env).flagSet = false :=
  ⟨⟨by decide, by decide⟩,
   (C9_flag_only_after_dispatch_in_sweep c9SweepRow c9Env).2.1 ⟨by decide, by decide⟩⟩

/-- Response of `PUT /api/queue/next` as far as the claim observes it: 409
when the call-next RPC fails, 200 with the In Progress row otherwise. -/
inductive CallNextResp where
  | conflict409
  | ok200 (e : QueueEntry)
deriving DecidableEq, Repr

/-- Call-next endpoint `PUT /api/queue/next` (server.js 1370-1447).  The
`call_next_customer` RPC is an external database function, so its result
is a parameter.  On RPC success the endpoint runs `enforceQueueLogic`,
fires best-effort notifications for whatever was returned, and responds
200 with the In Progress customer whatever the engine did. -/
def callNextEndpoint (rpc : Except Unit QueueEntry) (b : Nat) (o : DbFx)
    (q : List QueueEntry) : List QueueEntry × CallNextResp :=
  match rpc with
  | Except.error _ => (q, CallNextResp.conflict409)
  | Except.ok e => ((enforceQueueLogicFx b o q).1, CallNextResp.ok200 e)

/-- Completion endpoint including its trailing `enforceQueueLogic` call
(server.js 1524-1526): the engine runs only after the ledger write
succeeded, and the response is whatever `completeCut` produced. -/
def completeEndpoint (st : Store) (qid barber : Nat) (tip vip : Int)
    (o : DbFx) : Store × CompleteResult :=
  match completeCut st qid barber tip vip with
  | (st2, CompleteResult.okDone t) =>
      ({ st2 with queue := (enforceQueueLogicFx barber o st2.queue).1 },
       CompleteResult.okDone t)
  | (st2, r) => (st2, r)

/-- Success classifier for a join response: true exactly on the 201
created outcome. -/
def isCreated : JoinResult → Bool
  | JoinResult.created _ => true
  | _ => false

/-- Helper: once the duplicate check has passed, the insert-and-promote
tail of the join endpoint answers 201 created under every throw oracle —
each branch of the tail (promoted, not promoted, engine returned nothing
for the new entry) builds a created response. -/
theorem joinInsertAndPromote_isCreated (r : JoinReq) (newId created : Nat)
    (o : DbFx) (env : NotifyEnv) (q : List QueueEntry) :
    isCreated (joinInsertAndPromote r newId created o env q).2.1 = true := by
  unfold joinInsertAndPromote
  rcases h : enforceQueueLogicFx r.barber o (q ++ [joinInsertRow r newId created])
    with ⟨q2, promoted⟩
  simp only [h]
  rcases hf : promoted.find? (fun c => c.id == newId) with _ | pe
  · simp only [hf]
    rfl
  · simp only [hf]
    split <;> rfl

/-- C10: the promotion engine never surfaces an exception — whenever its
try-block throws, the catch handler returns the empty list (with whatever
partial mutations already happened kept); with no throw it is exactly the
plain engine; and every mutation endpoint that invokes it reports its own
success independently of the engine: call-next answers 200 with the In
Progress customer for every throw oracle, complete's response is that of
the completion step alone for every throw oracle, the join tail answers
201 created for every throw oracle, and the join endpoint's
success-or-not is the same under any throw oracle as under none. -/
theorem C10_enforce_errors_swallowed (b : Nat) (o : DbFx) (q : List QueueEntry)
    (e : QueueEntry) (st : Store) (qid barber : Nat) (tip vip : Int)
    (r : JoinReq) (newId created : Nat) (env : NotifyEnv) :
    (∀ q2, enforceBodyFx b o q = (q2, Except.error ()) →
      enforceQueueLogicFx b o q = (q2, [])) ∧
    enforceQueueLogicFx b noFx q = enforceQueueLogic b q ∧
    (callNextEndpoint (Except.ok e) b o q).2 = CallNextResp.ok200 e ∧
    (completeEndpoint st qid barber tip vip o).2 =
      (completeCut st qid barber tip vip).2 ∧
    isCreated (joinInsertAndPromote r newId created o env q).2.1 = true ∧
    isCreated (joinQueue r newId created o env q).2.1 =
      isCreated (joinQueue r newId created noFx env q).2.1 := by
  refine ⟨?_, enforceFx_noFx b q, rfl, ?_,
    joinInsertAndPromote_isCreated r newId created o env q, ?_⟩
  · intro q2 h
    unfold enforceQueueLogicFx
    rw [h]
  · unfold completeEndpoint
    rcases hc : completeCut st qid barber tip vip with ⟨st2, rr⟩
    cases rr <;> rfl
  · unfold joinQueue
    by_cases hn : (r.customer_name == "") = true
    · rw [if_pos hn, if_pos hn]
    · rw [if_neg hn, if_neg hn]
      rcases r.uid with _ | u
      · rw [joinInsertAndPromote_isCreated, joinInsertAndPromote_isCreated]
      · rcases hms : maybeSingle (activeFor q u) with o2 | _
        · rcases o2 with _ | a
          · simp only [hms]
            rw [joinInsertAndPromote_isCreated, joinInsertAndPromote_isCreated]
          · simp only [hms]
        · simp only [hms]

/-- Throw oracle in which the first select of the engine throws. -/
def c10Fx : DbFx := { q1 := true }

/-- Placeholder In Progress customer for the call-next witness. -/
def c10Row : QueueEntry :=
  { id := 9, barber_id := 2, created_at := 0, status := QStatus.inProgress }

/-- Empty store for the completion conjunct of the C10 witness. -/
def c10Store : Store := { queue := [], appts := [], services := [], charges := [] }

/-- Anonymous join request for the join conjuncts of the C10 witness. -/
def c10Req : JoinReq := { barber := 1 }

/-- C10 witness: with the first select throwing on an empty table, the
engine returns the empty list, and the join of `c10Req` under the same
throwing oracle still answers 201 created. -/
theorem C10_enforce_errors_swallowed_witness :
    enforceBodyFx 1 c10Fx [] = ([], Except.error ()) ∧
    enforceQueueLogicFx 1 c10Fx [] = ([], []) ∧
    isCreated (joinQueue c10Req 3 10 c10Fx envAll []).2.1 = true :=
  ⟨by rfl,
   (C10_enforce_errors_swallowed 1 c10Fx [] c10Row c10Store 0 0 0 0
      c10Req 3 10 envAll).1 [] (by rfl),
   by
    have h := (C10_enforce_errors_swallowed 1 c10Fx [] c10Row c10Store 0 0 0 0
      c10Req 3 10 envAll).2.2.2.2.2
    rw [h]
    decide⟩
